import Mathlib

/-
Verification of the MediaSwift conversion orchestrator (MediaSwift/ffpe.py).
Shallow embedding: Python floats are modelled as rationals, the per-line
regex search is modelled by an explicit backtracking matcher with the same
semantics as re.search on the pattern used by the source, and the
subprocess environment of one worker is a record of the observable inputs
(probe result, spawn result, output lines, exit status).
-/

namespace MediaSwift

/-- Length of the maximal leading run of decimal digits, the greedy match of
a d-plus regex atom (the source lines are ASCII ffmpeg output). -/
def digitRun : List Char → Nat
  | [] => 0
  | c :: rest => if c.isDigit then digitRun rest + 1 else 0

/-- Numeric value of an all-digit character list, as Python float reads an
all-digit string. -/
def digitsVal (cs : List Char) : Nat :=
  cs.foldl (fun acc c => acc * 10 + (c.toNat - 48)) 0

/-- Backtracking match of the final regex piece of the source pattern
time=(d+:d+:d+.d+): one-or-more digits, then AN ARBITRARY CHARACTER (the
dot in the source regex is unescaped, so it matches any character except a
newline), then one-or-more digits.  Returns the length of the matched
prefix of the input.  The greedy first run takes k digits; the engine then
backtracks: with the full run consumed the dot takes the next character
and the final run needs a digit after it; otherwise the dot consumes the
last digits of the run, which succeeds exactly when k is at least 3 and
then matches just the k digits of the run. -/
def matchFrac (t : List Char) : Option Nat :=
  let k := digitRun t
  if k = 0 then none
  else
    match t.get? k with
    | some c =>
      let m := digitRun (t.drop (k + 1))
      if c ≠ '\n' ∧ m ≥ 1 then some (k + 1 + m)
      else if k ≥ 3 then some k else none
    | none => if k ≥ 3 then some k else none

/-- Match of the group d+:d+:d+.d+ of the source regex at the start of the
input, returning the matched group characters.  The digit runs before each
colon are forced (a shorter run would still face a digit, not a colon), so
only the final piece backtracks. -/
def matchTail (t : List Char) : Option (List Char) :=
  let k1 := digitRun t
  if k1 = 0 then none
  else
    match t.drop k1 with
    | ':' :: r2 =>
      let k2 := digitRun r2
      if k2 = 0 then none
      else
        match r2.drop k2 with
        | ':' :: r3 =>
          match matchFrac r3 with
          | some n3 => some (t.take k1 ++ ':' :: (r2.take k2 ++ ':' :: r3.take n3))
          | none => none
        | _ => none
    | _ => none

/-- Leftmost search of the source pattern time=(d+:d+:d+.d+) over a line,
as re.search does: try every start position in order; at a position the
literal time= must match, then the group; on failure resume the scan one
character later. -/
def searchTime : List Char → Option (List Char)
  | [] => none
  | c :: rest =>
    if (c :: rest).take 5 == ['t', 'i', 'm', 'e', '='] then
      match matchTail ((c :: rest).drop 5) with
      | some g => some g
      | none => searchTime rest
    else searchTime rest

/-- Split of a character list at every colon, as the source runs
time_str.split with a colon separator. -/
def splitCols : List Char → List (List Char)
  | [] => [[]]
  | ':' :: rest => [] :: splitCols rest
  | c :: rest =>
    match splitCols rest with
    | [] => [[c]]
    | p :: ps => (c :: p) :: ps

/-- Model of the Python float constructor restricted to the component
shapes the group match can produce: an all-digit string, or nonempty
digits followed by one separator character followed by nonempty digits.
A dot separator reads as a decimal point, the letters e and E as a decimal
exponent and an underscore as a digit-group separator, all as float
accepts them; any other separator raises ValueError, modelled as none. -/
def pyFloatComp (t : List Char) : Option ℚ :=
  if t = [] then none
  else if t.all (fun c => c.isDigit) then some ((digitsVal t : ℚ))
  else
    let k := digitRun t
    if k = 0 then none
    else
      match t.get? k with
      | none => none
      | some c =>
        let d2 := t.drop (k + 1)
        if d2 = [] ∨ ¬ d2.all (fun c => c.isDigit) then none
        else if c = '.' then
          some ((digitsVal (t.take k) : ℚ) + (digitsVal d2 : ℚ) / (10 : ℚ) ^ d2.length)
        else if c = 'e' ∨ c = 'E' then
          some ((digitsVal (t.take k) : ℚ) * (10 : ℚ) ^ digitsVal d2)
        else if c = '_' then some ((digitsVal (t.take k ++ d2) : ℚ))
        else none

/-- Result of feeding one output line to the progress-parsing step of
convert_single: skip when the regex does not match (the line is silently
ignored), a parsed elapsed-seconds value on success, or error when the
matched group raises inside the loop body (ValueError from float, or an
unpacking error when the group does not split into exactly three parts);
such an exception aborts the whole worker. -/
inductive ParseResult
  | skip
  | value (seconds : ℚ)
  | error
deriving DecidableEq

/-- True exactly on the error result. -/
def ParseResult.isError : ParseResult → Bool
  | ParseResult.error => true
  | _ => false

/-- Conversion of a matched group to seconds, as the loop body of
convert_single: split the group at colons, read the three parts with
float, and combine as h * 3600 + m * 60 + s.  Any other shape raises. -/
def parseGroup (g : List Char) : ParseResult :=
  match (splitCols g).map pyFloatComp with
  | [some h, some m, some sec] => ParseResult.value (h * 3600 + m * 60 + sec)
  | _ => ParseResult.error

/-- Progress parsing of one subprocess output line, the body of the for
loop of convert_single (ffpe.py lines 478 to 483): search the line for the
source pattern and convert the matched group to elapsed seconds. -/
def parse_line (line : String) : ParseResult :=
  match searchTime line.data with
  | none => ParseResult.skip
  | some g => parseGroup g

/-- Spec-side timestamp pattern, written from the words of the spec: the
line contains time= followed by digits, colon, digits, colon, digits, a
LITERAL DECIMAL DOT, digits.  Named spec tail check; compare matchFrac,
where the dot of the source regex is unescaped. -/
def specTail (t : List Char) : Bool :=
  let k1 := digitRun t
  (k1 != 0) &&
    match t.drop k1 with
    | ':' :: r2 =>
      let k2 := digitRun r2
      (k2 != 0) &&
        match r2.drop k2 with
        | ':' :: r3 =>
          let k3 := digitRun r3
          (k3 != 0) &&
            match r3.drop k3 with
            | '.' :: r4 => digitRun r4 != 0
            | _ => false
        | _ => false
    | _ => false

/-- Spec-side search for the literal time=HH:MM:SS.ss pattern anywhere in
a line (modelled from the words of the spec, section 4.2). -/
def specSearch : List Char → Bool
  | [] => false
  | c :: rest =>
    ((c :: rest).take 5 == ['t', 'i', 'm', 'e', '='] && specTail ((c :: rest).drop 5))
      || specSearch rest

/-- Whether a line contains the spec pattern time=HH:MM:SS.ss with a
literal decimal dot. -/
def specTimestampPresent (l : String) : Bool := specSearch l.data

/-- Percent computation of convert_single (ffpe.py lines 484 to 487):
progress = min(elapsed_time / duration, 1.0) and then
int(np.ceil(progress * 100)).  np.ceil yields an integral float and the
int cast of an integral float is exact, so the composite is the integer
ceiling of progress * 100. -/
def progress_percentage (duration elapsed : ℚ) : ℤ :=
  ⌈min (elapsed / duration) 1 * 100⌉

/-- Successive values of the tqdm counter over the parsed elapsed times of
one job.  Each parsed line runs progress_bar.update(p - bar.n) (ffpe.py
line 488) and tqdm update adds its argument to the counter, so the counter
becomes exactly p; a negative delta decreases it, tqdm applies no clamp. -/
def barUpdates (duration : ℚ) (n : ℤ) : List ℚ → List ℤ
  | [] => []
  | e :: es =>
    let p := progress_percentage duration e
    (n + (p - n)) :: barUpdates duration (n + (p - n)) es

/-- Option parameters of convert and convert_single, in the order of the
Python signature (ffpe.py lines 342 to 352): video codec, audio codec,
resolution, hardware acceleration, sample rate, channels, audio bitrate,
frame rate, container format, preset, video bitrate.  Integer options keep
the Optional int annotation of the source. -/
structure JobOpts where
  cv : Option String
  ca : Option String
  s : Option String
  hwaccel : Option String
  ar : Option Int
  ac : Option Int
  ba : Option Int
  r : Option Int
  f : Option String
  preset : Option String
  bv : Option Int
deriving DecidableEq

/-- Flag/value pair for a string option, as the source guards each append
with a truthiness test: a Python string is falsy exactly when empty. -/
def strFlag (flag : String) (v : Option String) : List String :=
  match v with
  | some x => if x = "" then [] else [flag, x]
  | none => []

/-- Flag/value pair for an integer option: a Python int is falsy exactly
when zero, and the value is rendered with str. -/
def intFlag (flag : String) (v : Option Int) : List String :=
  match v with
  | some x => if x = 0 then [] else [flag, toString x]
  | none => []

/-- Resolution pair (ffpe.py lines 444 to 446): when the resolution string
is truthy, the non-ASCII multiplication sign is replaced by x and the pair
is appended. -/
def resFlag (v : Option String) : List String :=
  match v with
  | some x => if x = "" then [] else ["-s", x.replace "×" "x"]
  | none => []

/-- Overwrite flag and output path (ffpe.py lines 462 to 463), appended
when the output path string is truthy. -/
def outFlag (output_file : String) : List String :=
  if output_file = "" then [] else ["-y", output_file]

/-- Command line built by convert_single (ffpe.py lines 433 to 463):
executable and hide-banner first, the hardware-acceleration pair before
the input pair, then one guarded pair per option in source order, then the
overwrite flag and output path. -/
def buildCommand (ffpe_path input_file output_file : String) (o : JobOpts) : List String :=
  [ffpe_path, "-hide_banner"]
    ++ strFlag "-hwaccel" o.hwaccel
    ++ ["-i", input_file]
    ++ strFlag "-c:v" o.cv
    ++ strFlag "-c:a" o.ca
    ++ resFlag o.s
    ++ intFlag "-ar" o.ar
    ++ intFlag "-ac" o.ac
    ++ intFlag "-b:a" o.ba
    ++ intFlag "-r" o.r
    ++ strFlag "-f" o.f
    ++ strFlag "-preset" o.preset
    ++ intFlag "-b:v" o.bv
    ++ outFlag output_file

/-- Spec-side pair for a present string option (modelled from the words of
the spec, sections 4.3 and 6: each option is appended only when present,
as a flag/value pair). -/
def specStrPair (flag : String) (v : Option String) : List String :=
  match v with
  | some x => [flag, x]
  | none => []

/-- Spec-side pair for a present integer option. -/
def specIntPair (flag : String) (v : Option Int) : List String :=
  match v with
  | some x => [flag, toString x]
  | none => []

/-- Command line as the spec words it (section 6): executable, hide
banner, optional hardware-acceleration pair, input pair, one flag/value
pair per present option in the order video codec, audio codec, resolution
with the multiplication sign normalized, sample rate, channels, audio
bitrate, frame rate, container format, preset, video bitrate, then the
overwrite flag immediately before the output path. -/
def specCommand (exe inp outp : String) (o : JobOpts) : List String :=
  [exe, "-hide_banner"] ++ specStrPair "-hwaccel" o.hwaccel ++ ["-i", inp]
    ++ specStrPair "-c:v" o.cv ++ specStrPair "-c:a" o.ca
    ++ specStrPair "-s" (o.s.map (fun x => x.replace "×" "x"))
    ++ specIntPair "-ar" o.ar ++ specIntPair "-ac" o.ac ++ specIntPair "-b:a" o.ba
    ++ specIntPair "-r" o.r ++ specStrPair "-f" o.f ++ specStrPair "-preset" o.preset
    ++ specIntPair "-b:v" o.bv ++ ["-y", outp]

/-- Final part of a path after the last slash, as os.path.basename on a
POSIX path. -/
def basename (p : String) : String :=
  String.mk ((p.data.reverse.takeWhile (fun c => c ≠ '/')).reverse)

/-- Split of a slash-free name at its last dot, when one exists: the part
before the dot and the part from the dot on. -/
def splitAtLastDot : List Char → Option (List Char × List Char)
  | [] => none
  | c :: rest =>
    match splitAtLastDot rest with
    | some (pre, suf) => some (c :: pre, suf)
    | none => if c = '.' then some ([], c :: rest) else none

/-- Stem of a file name, as os.path.splitext keeps it: the name is cut at
its last dot only when some earlier character of the name is not a dot
(so a leading-dot name keeps its dot). -/
def stemOf (b : String) : String :=
  match splitAtLastDot b.data with
  | some (pre, _) => if pre.any (fun c => c ≠ '.') then String.mk pre else b
  | none => b

/-- Join of a directory and a file name, as os.path.join on POSIX paths:
an absolute name (leading slash) wins, an empty or slash-terminated
directory is prefixed as is, otherwise a slash is inserted. -/
def joinPath (dir name : String) : String :=
  if name.data.head? = some '/' then name
  else if dir = "" then name
  else if dir.data.getLast? = some '/' then dir ++ name
  else dir ++ "/" ++ name

/-- Rendering of an optional string inside an f-string, as Python format:
an absent value prints as the four letters None. -/
def pyStr : Option String → String
  | some v => v
  | none => "None"

/-- Output path derived by convert for one input file (ffpe.py lines 294
to 298): join of the output directory with the stem of the input basename,
a dot, and the f-string rendering of the container-format argument. -/
def outputFileName (output_dir input_file : String) (f : Option String) : String :=
  joinPath output_dir (stemOf (basename input_file) ++ "." ++ pyStr f)

/-- Terminal outcome of one job: the success path of convert_single prints
the completion message; any caught exception prints an error message and
ends the job as failed. -/
inductive Outcome
  | succeeded
  | failed
deriving DecidableEq

/-- Observable result of the batch method convert (ffpe.py lines 169 to
335): the list of worker threads started (input path and derived output
path, in submission order), the list of threads joined by the final wait
loop, and the value returned to the caller.  Every return statement of the
Python method is a bare return and the annotation is None, so the return
value is the Python None; the type below gives it the shape the spec
claims for a batch result in order to state that claim. -/
structure ConvertResult where
  spawned : List (String × String)
  joined : List (String × String)
  returnValue : Option (List Outcome)
deriving DecidableEq

/-- Batch method convert (ffpe.py lines 263 to 335): reject when the input
list is empty, when the output directory is falsy, or when some input file
does not exist (all checks run before any thread starts); otherwise start
one convert_single thread per input file in submission order and join them
all.  The file-system is abstracted as the existence test passed in. -/
def convert (fileExists : String → Bool) (input_files : List String)
    (output_dir : String) (o : JobOpts) : ConvertResult :=
  if input_files = [] then ⟨[], [], none⟩
  else if output_dir = "" then ⟨[], [], none⟩
  else if input_files.any (fun x => ! fileExists x) then ⟨[], [], none⟩
  else
    let threads := input_files.map (fun fi => (fi, outputFileName output_dir fi o.f))
    ⟨threads, threads, none⟩

/-- Result of the Popen call of convert_single: either the spawn raises,
or the process runs and yields its combined output lines, whether an I/O
error interrupts reading, and the exit status of the process. -/
inductive SpawnResult
  | raiseSpawn
  | ok (lines : List String) (readError : Bool) (exitStatus : Int)
deriving DecidableEq

/-- Environment of one worker run: the result of the get_duration probe
(none when the probe raises, ffpe.py lines 503 to 507) and the result of
the spawn. -/
structure WorkerEnv where
  probe : Option ℚ
  spawn : SpawnResult
deriving DecidableEq

/-- Observable result of one worker: its terminal outcome and whether the
transcoding Popen call was reached. -/
structure WorkerRun where
  outcome : Outcome
  launchedTranscode : Bool
deriving DecidableEq

/-- Worker body of convert_single (ffpe.py lines 465 to 499).  The probe
runs first inside the try block; when it raises, the except arms report
the failure and Popen is never reached.  When the spawn raises, the same
except arms report failure.  Otherwise the output lines are consumed; a
line whose matched group raises aborts the worker as failed, an I/O error
while reading does the same.  When the loop drains without an exception
the worker prints the completion message: the exit status of the process
is never consulted (Popen does not raise CalledProcessError and returncode
is never read), so it does not influence the outcome. -/
def convert_single (env : WorkerEnv) : WorkerRun :=
  match env.probe with
  | none => ⟨Outcome.failed, false⟩
  | some _ =>
    match env.spawn with
    | SpawnResult.raiseSpawn => ⟨Outcome.failed, true⟩
    | SpawnResult.ok lines readError _ =>
      if lines.any (fun l => (parse_line l).isError) || readError then
        ⟨Outcome.failed, true⟩
      else ⟨Outcome.succeeded, true⟩

/-- Sample option record with every option present and truthy, as the
usage examples of the source doc comments pass them. -/
def demoOpts : JobOpts :=
  ⟨some "h264", some "aac", some "1920×1080", some "cuda", some 44100, some 2,
    some 192, some 30, some "mp4", some "fast", some 50⟩

/-- Option record with every option absent. -/
def noneOpts : JobOpts :=
  ⟨none, none, none, none, none, none, none, none, none, none, none⟩

/-- File-system in which only a.mp4 exists. -/
def demoFS (p : String) : Bool := p == "a.mp4"

/-- File-system in which every path exists. -/
def allExist (_ : String) : Bool := true

/-- Helper: the guarded any over negated existence equals the negated all
over existence. -/
theorem anyNot_eq_not_all (fe : String → Bool) (files : List String) :
    files.any (fun x => ! fe x) = ! files.all fe := by
  induction files with
  | nil => rfl
  | cons a l ih => simp [List.any_cons, List.all_cons, ih, Bool.not_and]

/-- Helper: a truthy string option contributes the plain spec pair. -/
theorem strFlag_spec (flag : String) (v : Option String) (h : v ≠ some "") :
    strFlag flag v = specStrPair flag v := by
  cases v with
  | none => rfl
  | some x =>
    have hx : ¬ x = "" := fun hx => h (by rw [hx])
    simp [strFlag, specStrPair, hx]

/-- Helper: a nonzero integer option contributes the plain spec pair. -/
theorem intFlag_spec (flag : String) (v : Option Int) (h : v ≠ some 0) :
    intFlag flag v = specIntPair flag v := by
  cases v with
  | none => rfl
  | some x =>
    have hx : ¬ x = 0 := fun hx => h (by rw [hx])
    simp [intFlag, specIntPair, hx]

/-- Helper: a truthy resolution option contributes the normalized spec
pair. -/
theorem resFlag_spec (v : Option String) (h : v ≠ some "") :
    resFlag v = specStrPair "-s" (v.map (fun x => x.replace "×" "x")) := by
  cases v with
  | none => rfl
  | some x =>
    have hx : ¬ x = "" := fun hx => h (by rw [hx])
    simp [resFlag, specStrPair, hx]

/-- C1 counterexample: the worker applies no monotonic clamp.  For the
elapsed sequence 10, 5, 20 over a 100-second duration the reported
percents are 10, 5, 20 — not the clamped 10, 10, 20 the claim states. -/
theorem barUpdates_not_clamped_cex :
    barUpdates 100 0 [10, 5, 20] = [10, 5, 20] ∧
      ([10, 5, 20] : List ℤ) ≠ [10, 10, 20] := by
  have p10 : progress_percentage 100 10 = 10 := by
    unfold progress_percentage
    rw [min_eq_left (by norm_num : (10 : ℚ) / 100 ≤ 1),
      show ((10 : ℚ) / 100) * 100 = ((10 : ℤ) : ℚ) by norm_num]
    exact Int.ceil_intCast 10
  have p5 : progress_percentage 100 5 = 5 := by
    unfold progress_percentage
    rw [min_eq_left (by norm_num : (5 : ℚ) / 100 ≤ 1),
      show ((5 : ℚ) / 100) * 100 = ((5 : ℤ) : ℚ) by norm_num]
    exact Int.ceil_intCast 5
  have p20 : progress_percentage 100 20 = 20 := by
    unfold progress_percentage
    rw [min_eq_left (by norm_num : (20 : ℚ) / 100 ≤ 1),
      show ((20 : ℚ) / 100) * 100 = ((20 : ℤ) : ℚ) by norm_num]
    exact Int.ceil_intCast 20
  refine ⟨?_, by decide⟩
  norm_num [barUpdates, p10, p5, p20]

/-- C1 amended: within a job the reported percent after each parsed line
equals exactly the computed percent of that line — the worker updates the
bar by the delta percent minus counter, with no clamp, so the reported
sequence is the pointwise percent map of the elapsed sequence. -/
theorem barUpdates_eq_map_percent (duration : ℚ) (n : ℤ) (es : List ℚ) :
    barUpdates duration n es = es.map (progress_percentage duration) := by
  induction es generalizing n with
  | nil => rfl
  | cons e es ih =>
    have hp : n + (progress_percentage duration e - n) = progress_percentage duration e := by
      omega
    simp [barUpdates, hp, ih]

/-- C2: the dot of the source regex time=(d+:d+:d+.d+) is unescaped, so it
matches any character as the decimal point.  The line time=01:02:03450
contains no literal time=HH:MM:SS.ss pattern, yet the code parses it and
reports 7170 elapsed seconds; the well-formed line time=01:02:03.50 parses
to 3723.5 seconds as the spec states. -/
theorem parse_line_unescaped_dot_bug :
    specTimestampPresent "time=01:02:03450" = false ∧
      parse_line "time=01:02:03450" = ParseResult.value 7170 ∧
      parse_line "time=01:02:03.50" = ParseResult.value (7447 / 2) := by
  refine ⟨by decide, ?_, ?_⟩
  · have hp : parse_line "time=01:02:03450"
        = ParseResult.value
            (((1 : ℕ) : ℚ) * 3600 + ((2 : ℕ) : ℚ) * 60 + ((3450 : ℕ) : ℚ)) := rfl
    rw [hp]
    congr 1
    push_cast
    norm_num
  · have hp : parse_line "time=01:02:03.50"
        = ParseResult.value
            (((1 : ℕ) : ℚ) * 3600 + ((2 : ℕ) : ℚ) * 60
              + (((3 : ℕ) : ℚ) + ((50 : ℕ) : ℚ) / (10 : ℚ) ^ (2 : ℕ))) := rfl
    rw [hp]
    congr 1
    push_cast
    norm_num

/-- C3: the worker never consults the exit status of the process.  With a
successful probe, a drained output stream and exit status 1, convert_single
still takes the success path and prints the completion message, contrary
to the claim that a non-zero exit yields a failure outcome. -/
theorem worker_success_ignores_exit_status :
    convert_single
        (WorkerEnv.mk (some 100)
          (SpawnResult.ok ["time=00:00:10.00\n", "frame=  1 fps=0.0\n"] false 1))
      = WorkerRun.mk Outcome.succeeded true := by
  decide

/-- C4: when the input list is empty or some input file fails the
existence check, convert returns before creating any thread: zero workers
and zero external processes are started. -/
theorem convert_rejects_invalid_batch (fe : String → Bool) (files : List String)
    (dir : String) (o : JobOpts)
    (h : files = [] ∨ files.all fe = false) :
    (convert fe files dir o).spawned = [] := by
  rcases h with h | h
  · simp [convert, h]
  · unfold convert
    split_ifs with h1 h2 h3
    · rfl
    · rfl
    · rfl
    · exfalso
      rw [anyNot_eq_not_all, h] at h3
      exact h3 rfl

/-- C4 witness: a two-job batch whose second input file does not exist is
rejected with no worker started. -/
theorem convert_rejects_invalid_batch_witness :
    ((["a.mp4", "missing.mp4"] : List String) = [] ∨
        (["a.mp4", "missing.mp4"] : List String).all demoFS = false) ∧
      (convert demoFS ["a.mp4", "missing.mp4"] "out" demoOpts).spawned = [] :=
  ⟨Or.inr (by decide),
    convert_rejects_invalid_batch demoFS _ "out" demoOpts (Or.inr (by decide))⟩

/-- C5 counterexample: for a three-job batch that passes validation,
convert starts three workers but returns the Python None — no ordered
sequence of job outcomes is returned to the caller. -/
theorem convert_no_batchresult_cex :
    (convert allExist ["a.mp4", "b.mp4", "c.mp4"] "out" demoOpts).spawned.length = 3 ∧
      (convert allExist ["a.mp4", "b.mp4", "c.mp4"] "out" demoOpts).returnValue = none := by
  refine ⟨by decide, by decide⟩

/-- C5 amended: a validated batch starts exactly one worker per job in
submission order, joins every started worker, and returns None — no
BatchResult of job outcomes is constructed. -/
theorem convert_spawns_all_returns_none (fe : String → Bool) (files : List String)
    (dir : String) (o : JobOpts) (h1 : files ≠ []) (h2 : dir ≠ "")
    (h3 : files.all fe = true) :
    (convert fe files dir o).spawned
        = files.map (fun fi => (fi, outputFileName dir fi o.f)) ∧
      (convert fe files dir o).joined = (convert fe files dir o).spawned ∧
      (convert fe files dir o).returnValue = none := by
  have hany : ¬ (files.any (fun x => ! fe x) = true) := by
    rw [anyNot_eq_not_all, h3]
    decide
  unfold convert
  rw [if_neg h1, if_neg h2, if_neg hany]
  exact ⟨rfl, rfl, rfl⟩

/-- C5 amended witness: a concrete one-job batch. -/
theorem convert_spawns_all_returns_none_witness :
    (["a.mp4"] : List String) ≠ [] ∧ ("out" : String) ≠ "" ∧
      (["a.mp4"] : List String).all allExist = true ∧
      ((convert allExist ["a.mp4"] "out" demoOpts).spawned
          = ["a.mp4"].map (fun fi => (fi, outputFileName "out" fi demoOpts.f)) ∧
        (convert allExist ["a.mp4"] "out" demoOpts).joined
            = (convert allExist ["a.mp4"] "out" demoOpts).spawned ∧
        (convert allExist ["a.mp4"] "out" demoOpts).returnValue = none) :=
  ⟨by decide, by decide, by decide,
    convert_spawns_all_returns_none allExist ["a.mp4"] "out" demoOpts (by decide)
      (by decide) (by decide)⟩

/-- C6: for a positive total duration the computed percent is the ceiling
of min(elapsed / total, 1) * 100 and never exceeds 100, also when elapsed
exceeds the total. -/
theorem progress_percentage_formula (elapsed total : ℚ) (_h : 0 < total) :
    progress_percentage total elapsed = ⌈min (elapsed / total) 1 * 100⌉ ∧
      progress_percentage total elapsed ≤ 100 := by
  refine ⟨rfl, ?_⟩
  have hle : min (elapsed / total) 1 * 100 ≤ ((100 : ℤ) : ℚ) := by
    have h1 : min (elapsed / total) 1 ≤ 1 := min_le_right _ _
    push_cast
    nlinarith
  exact Int.ceil_le.mpr hle

/-- C6 witness: elapsed 150 seconds over a 100-second duration. -/
theorem progress_percentage_formula_witness :
    (0 : ℚ) < 100 ∧
      (progress_percentage 100 150 = ⌈min ((150 : ℚ) / 100) 1 * 100⌉ ∧
        progress_percentage 100 150 ≤ 100) :=
  ⟨by norm_num, progress_percentage_formula 150 100 (by norm_num)⟩

/-- C7: for a descriptor whose present options are truthy and whose output
path is nonempty, the command built by convert_single equals the command
the spec enumerates: hardware acceleration before the input pair, one
flag/value pair per present option in the stated order with the resolution
normalized, absent options contributing nothing, and the overwrite flag
immediately before the final output path. -/
theorem buildCommand_eq_specCommand (exe inp outp : String) (o : JobOpts)
    (hhw : o.hwaccel ≠ some "") (hcv : o.cv ≠ some "") (hca : o.ca ≠ some "")
    (hs : o.s ≠ some "") (har : o.ar ≠ some 0) (hac : o.ac ≠ some 0)
    (hba : o.ba ≠ some 0) (hr : o.r ≠ some 0) (hf : o.f ≠ some "")
    (hpre : o.preset ≠ some "") (hbv : o.bv ≠ some 0) (hout : outp ≠ "") :
    buildCommand exe inp outp o = specCommand exe inp outp o := by
  unfold buildCommand specCommand
  rw [strFlag_spec _ _ hhw, strFlag_spec _ _ hcv, strFlag_spec _ _ hca,
    resFlag_spec _ hs, intFlag_spec _ _ har, intFlag_spec _ _ hac,
    intFlag_spec _ _ hba, intFlag_spec _ _ hr, strFlag_spec _ _ hf,
    strFlag_spec _ _ hpre, intFlag_spec _ _ hbv]
  simp [outFlag, hout]

/-- C7 witness: the fully populated sample descriptor. -/
theorem buildCommand_eq_specCommand_witness :
    (demoOpts.hwaccel ≠ some "" ∧ demoOpts.cv ≠ some "" ∧ demoOpts.ca ≠ some "" ∧
        demoOpts.s ≠ some "" ∧ demoOpts.ar ≠ some 0 ∧ demoOpts.ac ≠ some 0 ∧
        demoOpts.ba ≠ some 0 ∧ demoOpts.r ≠ some 0 ∧ demoOpts.f ≠ some "" ∧
        demoOpts.preset ≠ some "" ∧ demoOpts.bv ≠ some 0 ∧ ("out/v.mp4" : String) ≠ "") ∧
      buildCommand "ffpe.exe" "v.mkv" "out/v.mp4" demoOpts
        = specCommand "ffpe.exe" "v.mkv" "out/v.mp4" demoOpts :=
  ⟨⟨by decide, by decide, by decide, by decide, by decide, by decide, by decide,
      by decide, by decide, by decide, by decide, by decide⟩,
    buildCommand_eq_specCommand "ffpe.exe" "v.mkv" "out/v.mp4" demoOpts (by decide)
      (by decide) (by decide) (by decide) (by decide) (by decide) (by decide)
      (by decide) (by decide) (by decide) (by decide) (by decide)⟩

/-- C8: when the duration probe fails, the worker ends failed and the
transcoding Popen call is never reached — the probe runs first and is not
retried. -/
theorem probe_failure_prevents_transcode (env : WorkerEnv) (h : env.probe = none) :
    (convert_single env).outcome = Outcome.failed ∧
      (convert_single env).launchedTranscode = false := by
  cases env with
  | mk probe spawn =>
    cases probe with
    | none => exact ⟨rfl, rfl⟩
    | some d => exact Option.noConfusion h

/-- C8 witness: a concrete environment with a failing probe. -/
theorem probe_failure_prevents_transcode_witness :
    (WorkerEnv.mk none SpawnResult.raiseSpawn).probe = none ∧
      ((convert_single (WorkerEnv.mk none SpawnResult.raiseSpawn)).outcome
          = Outcome.failed ∧
        (convert_single (WorkerEnv.mk none SpawnResult.raiseSpawn)).launchedTranscode
          = false) :=
  ⟨rfl, probe_failure_prevents_transcode _ rfl⟩

/-- C9 counterexample: with the container-format field absent the derived
output path is out/video.None — the literal rendering of the absent field
lands in the path, the same path as if the value None had been passed, and
not an f-free derivation. -/
theorem outputFileName_absent_format_cex :
    outputFileName "out" "video.mkv" none = "out/video.None" ∧
      outputFileName "out" "video.mkv" none
          = outputFileName "out" "video.mkv" (some "None") ∧
      outputFileName "out" "video.mkv" none ≠ "out/video.mkv" := by
  refine ⟨by decide, by decide, by decide⟩

/-- C9 amended: absent option fields add no flag/value pair to the command
line, so the executable chooses its defaults for the flags; the derived
output path however always embeds the string rendering of the
container-format field, so with the field absent the output file name gets
the literal extension None, exactly the path obtained by passing the
string None. -/
theorem absent_options_no_flags_path_none (exe inp outp dir file : String)
    (h : outp ≠ "") :
    buildCommand exe inp outp noneOpts = [exe, "-hide_banner", "-i", inp, "-y", outp] ∧
      outputFileName dir file none = outputFileName dir file (some "None") := by
  constructor
  · simp [buildCommand, strFlag, intFlag, resFlag, noneOpts, outFlag, h]
  · rfl

/-- C9 amended witness: a concrete invocation. -/
theorem absent_options_no_flags_path_none_witness :
    ("o.mp4" : String) ≠ "" ∧
      (buildCommand "ffpe.exe" "v.mkv" "o.mp4" noneOpts
          = ["ffpe.exe", "-hide_banner", "-i", "v.mkv", "-y", "o.mp4"] ∧
        outputFileName "d" "v.mkv" none = outputFileName "d" "v.mkv" (some "None")) :=
  ⟨by decide,
    absent_options_no_flags_path_none "ffpe.exe" "v.mkv" "o.mp4" "d" "v.mkv" (by decide)⟩

/-- C10: an option passed with a falsy value — zero for the integer
options, the empty string for the string options — is omitted from the
command line exactly as if it had not been supplied: inclusion is decided
by truthiness, not by presence. -/
theorem falsy_options_omitted (exe inp outp : String) (o : JobOpts) :
    buildCommand exe inp outp { o with cv := some "" }
        = buildCommand exe inp outp { o with cv := none } ∧
      buildCommand exe inp outp { o with ca := some "" }
          = buildCommand exe inp outp { o with ca := none } ∧
      buildCommand exe inp outp { o with s := some "" }
          = buildCommand exe inp outp { o with s := none } ∧
      buildCommand exe inp outp { o with hwaccel := some "" }
          = buildCommand exe inp outp { o with hwaccel := none } ∧
      buildCommand exe inp outp { o with ar := some 0 }
          = buildCommand exe inp outp { o with ar := none } ∧
      buildCommand exe inp outp { o with ac := some 0 }
          = buildCommand exe inp outp { o with ac := none } ∧
      buildCommand exe inp outp { o with ba := some 0 }
          = buildCommand exe inp outp { o with ba := none } ∧
      buildCommand exe inp outp { o with r := some 0 }
          = buildCommand exe inp outp { o with r := none } ∧
      buildCommand exe inp outp { o with f := some "" }
          = buildCommand exe inp outp { o with f := none } ∧
      buildCommand exe inp outp { o with preset := some "" }
          = buildCommand exe inp outp { o with preset := none } ∧
      buildCommand exe inp outp { o with bv := some 0 }
          = buildCommand exe inp outp { o with bv := none } := by
  refine ⟨?_, ?_, ?_, ?_, ?_, ?_, ?_, ?_, ?_, ?_, ?_⟩ <;>
    simp [buildCommand, strFlag, intFlag, resFlag]

end MediaSwift
